import Mathlib

/-!
Shallow embedding of the Connectify messaging client's orchestration logic.

The external document store (`blink.db`) is modelled as an explicit record of
collections (`DB`); every `list`/`create`/`createMany`/`update` call of the
source becomes a pure filter / append / map on that record.  JavaScript
`Date.now()` values and generated ids are passed in as explicit parameters.
Numeric fields that the source tests for truthiness (`invite.expiresAt`,
`invite.maxUses`) are modelled as `Nat` with `0` playing the role of the
falsy absent/zero value, exactly as the guards `invite.expiresAt && ...`
and `invite.maxUses && ...` behave in JavaScript.  An absent string field
(`msg.content` on attachment messages) is modelled as `""`, which is falsy
in JavaScript just like `undefined`, matching the guard `msg.content || ...`.
-/

namespace Connectify

/-- Role of a conversation member (`'admin' | 'member' | 'guest'`). -/
inductive Role where
  | admin
  | member
  | guest
deriving DecidableEq, Repr

/-- Conversation type (`'private' | 'group'`); `private` is a Lean keyword,
so the private constructor is named `priv`. -/
inductive ConvType where
  | priv
  | group
deriving DecidableEq, Repr

/-- Message type (`'text' | 'file' | 'image'`). -/
inductive MessageType where
  | text
  | file
  | image
deriving DecidableEq, Repr

/-- User record as stored in `blink.db.users`. -/
structure User where
  id : String
  email : String
  displayName : String
  status : String
  lastSeen : Nat
  isGuest : Bool
  guestName : String
deriving DecidableEq, Repr

/-- Conversation record as stored in `blink.db.conversations`.
`name`/`description` are `""` for private conversations (absent fields). -/
structure Conversation where
  id : String
  type : ConvType
  name : String
  description : String
  createdBy : String
  createdAt : Nat
  updatedAt : Nat
  lastMessageAt : Nat
deriving DecidableEq, Repr

/-- Membership record as stored in `blink.db.conversationMembers`.
`joinedAt` is only used as a sort key by `loadConversations`; the source
never writes it, so created records carry `0`. -/
structure ConversationMember where
  id : String
  conversationId : String
  userId : String
  role : Role
  joinedAt : Nat
deriving DecidableEq, Repr

/-- Message record as stored in `blink.db.messages`.  File fields are `""`/`0`
on text messages, `content` is `""` on attachment messages. -/
structure Message where
  id : String
  conversationId : String
  userId : String
  content : String
  messageType : MessageType
  fileUrl : String
  fileName : String
  fileSize : Nat
  fileType : String
  createdAt : Nat
deriving DecidableEq, Repr

/-- Invite record as stored in `blink.db.invites`.  `expiresAt = 0` and
`maxUses = 0` model the absent (never expires / unlimited) case, which the
source's truthiness guards treat identically to `undefined`. -/
structure Invite where
  id : String
  conversationId : String
  createdBy : String
  inviteCode : String
  expiresAt : Nat
  maxUses : Nat
  currentUses : Nat
  isActive : Bool
deriving DecidableEq, Repr

/-- The external document store: one list per collection. -/
structure DB where
  users : List User
  conversations : List Conversation
  conversationMembers : List ConversationMember
  messages : List Message
  invites : List Invite
deriving DecidableEq, Repr

/-- Which collection a store call touches; used to record the call trace of
`loadConversations` (`conversationMembers.list`, `conversations.list`,
`messages.list`, `users.list`). -/
inductive StoreCall where
  | membersList
  | conversationsList
  | messagesList
  | usersList
deriving DecidableEq, Repr

/-- The joined last-message preview built by `loadConversations`. -/
structure LastMessageView where
  content : String
  senderName : String
  createdAt : Nat
deriving DecidableEq, Repr

/-- The in-memory projection `loadConversations` builds for one conversation:
the record itself, the optional last-message preview, and (for groups) the
resolved member roster. -/
structure ConversationView where
  conv : Conversation
  lastMessage : Option LastMessageView
  members : Option (List User)
deriving DecidableEq, Repr

/-- A message joined with its resolved sender, as produced by `loadMessages`. -/
structure MessageWithUser where
  msg : Message
  user : Option User
deriving DecidableEq, Repr

/-- Ascending order on messages by `createdAt` (the `orderBy: createdAt asc`
of `loadMessages`). -/
def createdAtLe (a b : Message) : Prop := a.createdAt ≤ b.createdAt

instance : DecidableRel createdAtLe := fun a b => Nat.decLe a.createdAt b.createdAt

instance : IsTotal Message createdAtLe := ⟨fun a b => Nat.le_total a.createdAt b.createdAt⟩

instance : IsTrans Message createdAtLe := ⟨fun _ _ _ h h' => Nat.le_trans h h'⟩

/-- Descending order on messages by `createdAt` (the `orderBy: createdAt desc`
used when fetching the last message of a conversation). -/
def createdAtGe (a b : Message) : Prop := b.createdAt ≤ a.createdAt

instance : DecidableRel createdAtGe := fun a b => Nat.decLe b.createdAt a.createdAt

instance : IsTotal Message createdAtGe := ⟨fun a b => Nat.le_total b.createdAt a.createdAt⟩

instance : IsTrans Message createdAtGe := ⟨fun _ _ _ h h' => Nat.le_trans h' h⟩

/-- Descending order on membership records by `joinedAt`
(`orderBy: joinedAt desc` in `loadConversations`). -/
def joinedAtGe (a b : ConversationMember) : Prop := b.joinedAt ≤ a.joinedAt

instance : DecidableRel joinedAtGe := fun a b => Nat.decLe b.joinedAt a.joinedAt

/-- Descending order on conversations by `lastMessageAt`
(`orderBy: lastMessageAt desc` in `loadConversations`). -/
def lastMessageAtGe (a b : Conversation) : Prop := b.lastMessageAt ≤ a.lastMessageAt

instance : DecidableRel lastMessageAtGe := fun a b => Nat.decLe b.lastMessageAt a.lastMessageAt

/-- The preview-content expression of `loadConversations`:
`msg.content || (msg.messageType === 'file' ? "📎 " + msg.fileName : 'File')`. -/
def lastMessageContent (msg : Message) : String :=
  if msg.content = "" then
    if msg.messageType = MessageType.file then "📎 " ++ msg.fileName else "File"
  else msg.content

/-- The sender-name expression of `loadConversations`:
`sender[0]?.displayName || 'Unknown'`. -/
def senderNameOf (sender : Option User) : String :=
  match sender with
  | none => "Unknown"
  | some u => if u.displayName = "" then "Unknown" else u.displayName

/-- The body of the `conversationsData.map` in `loadConversations`: joins one
conversation with its most-recent message preview and (for groups) the
resolved member roster, returning the view and the store calls issued. -/
def conversationWithDetails (db : DB) (conv : Conversation) :
    ConversationView × List StoreCall :=
  let lastMessages :=
    (List.insertionSort createdAtGe
      (db.messages.filter (fun m => m.conversationId == conv.id))).take 1
  let lastMessage :=
    match lastMessages.head? with
    | none => none
    | some msg =>
        let sender := (db.users.filter (fun u => u.id == msg.userId)).take 1
        some { content := lastMessageContent msg,
               senderName := senderNameOf sender.head?,
               createdAt := msg.createdAt }
  let senderCalls : List StoreCall :=
    match lastMessages.head? with
    | none => []
    | some _ => [StoreCall.usersList]
  let memberIds :=
    db.conversationMembers.filter (fun m => m.conversationId == conv.id)
  let members :=
    if conv.type = ConvType.group then
      some ((memberIds.map
        (fun m => (db.users.filter (fun u => u.id == m.userId)).take 1 |>.head?)).filterMap id)
    else none
  let memberCalls : List StoreCall :=
    if conv.type = ConvType.group then
      StoreCall.membersList :: memberIds.map (fun _ => StoreCall.usersList)
    else []
  (⟨conv, lastMessage, members⟩,
    StoreCall.messagesList :: (senderCalls ++ memberCalls))

/-- `loadConversations` of `App.tsx`: lists the user's membership records,
returns an empty list at once when there are none, and otherwise joins each
of the user's conversations with its details.  Returns the resulting
conversation-list state together with the trace of store calls issued. -/
def loadConversations (db : DB) (userId : String) :
    List ConversationView × List StoreCall :=
  let membershipData :=
    List.insertionSort joinedAtGe
      (db.conversationMembers.filter (fun m => m.userId == userId))
  if membershipData.length = 0 then
    ([], [StoreCall.membersList])
  else
    let conversationIds := membershipData.map (fun m => m.conversationId)
    let conversationsData :=
      List.insertionSort lastMessageAtGe
        (db.conversations.filter (fun c => conversationIds.contains c.id))
    let results := conversationsData.map (conversationWithDetails db)
    (results.map (fun r => r.1),
      StoreCall.membersList :: StoreCall.conversationsList ::
        (results.map (fun r => r.2)).flatten)

/-- `loadMessages` of the chat view: lists the conversation's messages ordered
by `createdAt` ascending and attaches each sender record. -/
def loadMessages (db : DB) (conversationId : String) : List MessageWithUser :=
  let messagesData :=
    List.insertionSort createdAtLe
      (db.messages.filter (fun m => m.conversationId == conversationId))
  messagesData.map
    (fun m => ⟨m, ((db.users.filter (fun u => u.id == m.userId)).take 1).head?⟩)

/-- JavaScript `String.prototype.trim`: strips leading and trailing
whitespace.  Modelled directly on the underlying character list so that it
stays kernel-computable. -/
def trim (s : String) : String :=
  ⟨((s.data.dropWhile Char.isWhitespace).reverse.dropWhile Char.isWhitespace).reverse⟩

/-- `sendMessage` of the chat view.  `sending` is the in-flight flag; `now` is
the `Date.now()` used for the message's `createdAt`, `now2` the later
`Date.now()` used for the conversation-timestamp update, and `messageId` the
generated id.  Returns the store after the operation. -/
def sendMessage (db : DB) (conversation : Conversation) (user : User)
    (newMessage : String) (sending : Bool) (now now2 : Nat)
    (messageId : String) : DB :=
  if trim newMessage = "" ∨ sending then db
  else
    let db1 : DB :=
      { db with messages := db.messages ++
          [{ id := messageId, conversationId := conversation.id,
             userId := user.id, content := trim newMessage,
             messageType := MessageType.text, fileUrl := "", fileName := "",
             fileSize := 0, fileType := "", createdAt := now }] }
    { db1 with conversations := db1.conversations.map (fun c =>
        if c.id == conversation.id then
          { c with lastMessageAt := now2, updatedAt := now2 } else c) }

/-- Outcome of `handleInviteJoin`, one per toast the source can show on this
path: the invalid-invite toast (lookup found no active invite with the code),
the expired-invite toast, the usage-limit toast, and the joined toast. -/
inductive InviteOutcome where
  | invalidInvite
  | expiredInvite
  | limitReached
  | joined
deriving DecidableEq, Repr

/-- Result of `handleInviteJoin`: the outcome, the store afterwards, the
reloaded conversation-list state (`none` when the flow failed before the
reload), and the conversation the flow selected (if any). -/
structure InviteJoinResult where
  outcome : InviteOutcome
  db : DB
  reloaded : Option (List ConversationView)
  selectedConversation : Option Conversation
deriving DecidableEq, Repr

/-- `handleInviteJoin` of `App.tsx`: looks up an active invite by code, checks
expiry (`invite.expiresAt && invite.expiresAt < Date.now()`) and the usage cap
(`invite.maxUses && invite.currentUses >= invite.maxUses`), adds the user as a
member and bumps `currentUses` only when no membership exists yet, then
reloads the conversation list and selects the invite's conversation. -/
def handleInviteJoin (db : DB) (currentUser : User) (code : String)
    (now : Nat) (newMemberId : String) : InviteJoinResult :=
  let invites :=
    (db.invites.filter (fun i => i.inviteCode == code && i.isActive)).take 1
  match invites.head? with
  | none => ⟨InviteOutcome.invalidInvite, db, none, none⟩
  | some invite =>
    if invite.expiresAt ≠ 0 ∧ invite.expiresAt < now then
      ⟨InviteOutcome.expiredInvite, db, none, none⟩
    else if invite.maxUses ≠ 0 ∧ invite.currentUses ≥ invite.maxUses then
      ⟨InviteOutcome.limitReached, db, none, none⟩
    else
      let existingMembership :=
        (db.conversationMembers.filter
          (fun m => m.conversationId == invite.conversationId &&
            m.userId == currentUser.id)).take 1
      let db2 :=
        if existingMembership.length = 0 then
          let dbA : DB :=
            { db with conversationMembers := db.conversationMembers ++
                [{ id := newMemberId, conversationId := invite.conversationId,
                   userId := currentUser.id,
                   role := if currentUser.isGuest then Role.guest else Role.member,
                   joinedAt := 0 }] }
          { dbA with invites := dbA.invites.map (fun j =>
              if j.id == invite.id then
                { j with currentUses := invite.currentUses + 1 } else j) }
        else db
      let convs := (loadConversations db2 currentUser.id).1
      let conv :=
        (db2.conversations.filter (fun c => c.id == invite.conversationId)).take 1
      ⟨InviteOutcome.joined, db2, some convs, conv.head?⟩

/-- One iteration of the duplicate-scan loop in `handleCreatePrivateChat`:
for a membership record of the current user, fetch the referenced
conversation restricted to `type = 'private'` and accept it when it has
exactly two members, one of them `targetUserId`. -/
def privateMatch (db : DB) (targetUserId : String)
    (membership : ConversationMember) : Option Conversation :=
  match (db.conversations.filter
      (fun c => c.id == membership.conversationId &&
        c.type == ConvType.priv)).take 1 |>.head? with
  | none => none
  | some conv =>
    let otherMembers :=
      db.conversationMembers.filter (fun m => m.conversationId == conv.id)
    if otherMembers.length = 2 ∧
        otherMembers.any (fun m => m.userId == targetUserId) then
      some conv
    else none

/-- The `for (const membership of existingMemberships)` loop of
`handleCreatePrivateChat`: returns the first existing private conversation
with `targetUserId`, if any. -/
def findExistingPrivate (db : DB) (targetUserId : String) :
    List ConversationMember → Option Conversation
  | [] => none
  | membership :: rest =>
    match privateMatch db targetUserId membership with
    | some conv => some conv
    | none => findExistingPrivate db targetUserId rest

/-- `handleCreatePrivateChat` of `App.tsx`: scans the current user's
memberships for an existing two-member private conversation with the target
user and selects it if found; otherwise creates a new private conversation
and two `role = 'member'` membership records.  Returns the store afterwards
and the conversation selected (the create path selects none). -/
def handleCreatePrivateChat (db : DB) (user : User) (targetUserId : String)
    (now : Nat) (conversationId mem1 mem2 : String) :
    DB × Option Conversation :=
  let existingMemberships :=
    db.conversationMembers.filter (fun m => m.userId == user.id)
  match findExistingPrivate db targetUserId existingMemberships with
  | some conv => (db, some conv)
  | none =>
    let db1 : DB :=
      { db with conversations := db.conversations ++
          [{ id := conversationId, type := ConvType.priv, name := "",
             description := "", createdBy := user.id, createdAt := now,
             updatedAt := now, lastMessageAt := now }] }
    let db2 : DB :=
      { db1 with conversationMembers := db1.conversationMembers ++
          [{ id := mem1, conversationId := conversationId, userId := user.id,
             role := Role.member, joinedAt := 0 },
           { id := mem2, conversationId := conversationId,
             userId := targetUserId, role := Role.member, joinedAt := 0 }] }
    (db2, none)

/-- `handleCreateGroup` of `App.tsx`: creates one group conversation and a
batch of membership records — the creator with role `'admin'` (or `'guest'`
when the creator is a guest) followed by one `'member'` record per supplied
member id, with ids `member_<now>_<index+1>`. -/
def handleCreateGroup (db : DB) (user : User) (name description : String)
    (memberIds : List String) (now : Nat) (conversationId : String) : DB :=
  let db1 : DB :=
    { db with conversations := db.conversations ++
        [{ id := conversationId, type := ConvType.group, name := name,
           description := description, createdBy := user.id, createdAt := now,
           updatedAt := now, lastMessageAt := now }] }
  let creator : ConversationMember :=
    { id := "member_" ++ toString now ++ "_0",
      conversationId := conversationId, userId := user.id,
      role := if user.isGuest then Role.guest else Role.admin, joinedAt := 0 }
  let others : List ConversationMember :=
    memberIds.enum.map
      (fun p => { id := "member_" ++ toString now ++ "_" ++ toString (p.1 + 1),
                  conversationId := conversationId, userId := p.2,
                  role := Role.member, joinedAt := 0 })
  { db1 with conversationMembers :=
      db1.conversationMembers ++ (creator :: others) }

/-! ## General helper lemmas -/

theorem head?_take_one {α : Type} (l : List α) : (l.take 1).head? = l.head? := by
  cases l <;> rfl

theorem head?_eq_of_mem_all {α : Type} {l : List α} {a : α}
    (hmem : a ∈ l) (hall : ∀ x ∈ l, x = a) : l.head? = some a := by
  cases l with
  | nil => cases hmem
  | cons b t =>
      have : b = a := hall b (List.mem_cons_self b t)
      simp [this]

/-! ## Claim theorems -/

/-- C5: for a user with zero membership records, `loadConversations` sets the
conversation list to empty and issues no conversation-list, message-list or
user-lookup call — the trace holds only the initial membership-list call. -/
theorem loadConversations_empty_memberships (db : DB) (userId : String)
    (h : db.conversationMembers.filter (fun m => m.userId == userId) = []) :
    (loadConversations db userId).1 = [] ∧
    StoreCall.conversationsList ∉ (loadConversations db userId).2 ∧
    StoreCall.messagesList ∉ (loadConversations db userId).2 ∧
    StoreCall.usersList ∉ (loadConversations db userId).2 := by
  unfold loadConversations
  rw [h]
  simp [List.insertionSort]

/-- Witness for C5: a store with no membership records at all. -/
theorem loadConversations_empty_memberships_witness :
    (loadConversations ⟨[], [], [], [], []⟩ "u1").1 = [] ∧
    StoreCall.conversationsList ∉ (loadConversations ⟨[], [], [], [], []⟩ "u1").2 ∧
    StoreCall.messagesList ∉ (loadConversations ⟨[], [], [], [], []⟩ "u1").2 ∧
    StoreCall.usersList ∉ (loadConversations ⟨[], [], [], [], []⟩ "u1").2 :=
  loadConversations_empty_memberships ⟨[], [], [], [], []⟩ "u1" rfl

/-- C7: a `sendMessage` whose input trims to the empty string writes nothing
to the store and leaves the message thread unchanged. -/
theorem sendMessage_blank_noop (db : DB) (conversation : Conversation)
    (user : User) (newMessage : String) (sending : Bool) (now now2 : Nat)
    (messageId : String) (h : trim newMessage = "") :
    sendMessage db conversation user newMessage sending now now2 messageId = db ∧
    loadMessages
        (sendMessage db conversation user newMessage sending now now2 messageId)
        conversation.id =
      loadMessages db conversation.id := by
  have hdb : sendMessage db conversation user newMessage sending now now2
      messageId = db := by
    unfold sendMessage
    rw [if_pos (Or.inl h)]
  exact ⟨hdb, by rw [hdb]⟩

/-- Witness for C7: a whitespace-only input on a tiny store. -/
theorem sendMessage_blank_noop_witness :
    sendMessage ⟨[], [⟨"c1", ConvType.priv, "", "", "u1", 1, 1, 1⟩], [], [], []⟩
        ⟨"c1", ConvType.priv, "", "", "u1", 1, 1, 1⟩
        ⟨"u1", "a@b", "Alice", "online", 0, false, ""⟩
        "  " false 9 10 "msg1" =
      ⟨[], [⟨"c1", ConvType.priv, "", "", "u1", 1, 1, 1⟩], [], [], []⟩ ∧
    loadMessages
        (sendMessage ⟨[], [⟨"c1", ConvType.priv, "", "", "u1", 1, 1, 1⟩], [], [], []⟩
          ⟨"c1", ConvType.priv, "", "", "u1", 1, 1, 1⟩
          ⟨"u1", "a@b", "Alice", "online", 0, false, ""⟩
          "  " false 9 10 "msg1") "c1" =
      loadMessages ⟨[], [⟨"c1", ConvType.priv, "", "", "u1", 1, 1, 1⟩], [], [], []⟩ "c1" :=
  sendMessage_blank_noop _ _ _ "  " false 9 10 "msg1" (by decide)

/-- C6: `handleCreateGroup` with name `"Team"` and member ids `[b, c]` adds
exactly one conversation record (type group, name `"Team"`) and exactly three
membership records — the creator with role admin (guest when the creator is a
guest) and the two supplied ids with role member — and touches nothing else. -/
theorem handleCreateGroup_team (db : DB) (user : User) (description b c : String)
    (now : Nat) (conversationId : String) :
    (handleCreateGroup db user "Team" description [b, c] now conversationId).conversations =
      db.conversations ++
        [⟨conversationId, ConvType.group, "Team", description, user.id, now, now, now⟩] ∧
    (∃ id0 id1 id2,
      (handleCreateGroup db user "Team" description [b, c] now conversationId).conversationMembers =
        db.conversationMembers ++
          [⟨id0, conversationId, user.id,
              if user.isGuest then Role.guest else Role.admin, 0⟩,
           ⟨id1, conversationId, b, Role.member, 0⟩,
           ⟨id2, conversationId, c, Role.member, 0⟩]) ∧
    (handleCreateGroup db user "Team" description [b, c] now conversationId).users =
      db.users ∧
    (handleCreateGroup db user "Team" description [b, c] now conversationId).messages =
      db.messages ∧
    (handleCreateGroup db user "Team" description [b, c] now conversationId).invites =
      db.invites :=
  ⟨rfl, ⟨_, _, _, rfl⟩, rfl, rfl, rfl⟩

/-! ## Invite-lookup helper lemmas -/

/-- When `i` is the unique invite carrying `code` and it is active, the
lookup step of `handleInviteJoin` resolves to `i`. -/
theorem invite_lookup_eq {db : DB} {code : String} {i : Invite}
    (hi : i ∈ db.invites) (hcode : i.inviteCode = code)
    (huniq : ∀ j ∈ db.invites, j.inviteCode = code → j = i)
    (hact : i.isActive = true) :
    ((db.invites.filter
      (fun j => j.inviteCode == code && j.isActive)).take 1).head? = some i := by
  rw [head?_take_one]
  apply head?_eq_of_mem_all
  · exact List.mem_filter.mpr ⟨hi, by simp [hcode, hact]⟩
  · intro x hx
    obtain ⟨hxmem, hxpred⟩ := List.mem_filter.mp hx
    rw [Bool.and_eq_true, beq_iff_eq] at hxpred
    exact huniq x hxmem hxpred.1

/-- When `i` is the unique invite carrying `code` but it is inactive, the
lookup step of `handleInviteJoin` comes back empty. -/
theorem invite_lookup_nil {db : DB} {code : String} {i : Invite}
    (huniq : ∀ j ∈ db.invites, j.inviteCode = code → j = i)
    (hact : i.isActive = false) :
    db.invites.filter (fun j => j.inviteCode == code && j.isActive) = [] := by
  rw [List.filter_eq_nil_iff]
  intro j hj hpred
  rw [Bool.and_eq_true, beq_iff_eq] at hpred
  have hji : j = i := huniq j hj hpred.1
  rw [hji, hact] at hpred
  exact Bool.false_ne_true hpred.2

/-- C2 counterexample: an invite whose `expiresAt` (= 1) is in the past
(now = 100) but whose `isActive` flag is `false` is filtered out by the
lookup step, so `handleInviteJoin` returns the invalid-invite outcome, not
the expired outcome — the claim's "regardless of `isActive`" fails. -/
theorem handleInviteJoin_inactive_expired_is_invalid :
    (⟨"i1", "c1", "u0", "abc", 1, 0, 0, false⟩ : Invite) ∈
      (⟨[], [], [], [], [⟨"i1", "c1", "u0", "abc", 1, 0, 0, false⟩]⟩ : DB).invites ∧
    (1 : Nat) ≠ 0 ∧ (1 : Nat) < 100 ∧
    (handleInviteJoin ⟨[], [], [], [], [⟨"i1", "c1", "u0", "abc", 1, 0, 0, false⟩]⟩
        ⟨"u2", "c@d", "Bob", "online", 0, false, ""⟩ "abc" 100 "m1").outcome ≠
      InviteOutcome.expiredInvite ∧
    (handleInviteJoin ⟨[], [], [], [], [⟨"i1", "c1", "u0", "abc", 1, 0, 0, false⟩]⟩
        ⟨"u2", "c@d", "Bob", "online", 0, false, ""⟩ "abc" 100 "m1").outcome =
      InviteOutcome.invalidInvite := by
  refine ⟨List.mem_cons_self _ _, by decide, by decide, ?_, ?_⟩ <;> decide

/-- C2 amended: for the invite carrying the code, with `expiresAt` set and in
the past, `handleInviteJoin` fails — with the expired outcome when `isActive`
is true, and with the invalid-invite outcome when `isActive` is false (the
lookup filters inactive invites out) — and in both cases the store is left
untouched (no membership write, no `currentUses` update). -/
theorem handleInviteJoin_expired (db : DB) (u : User) (code : String)
    (now : Nat) (mid : String) (i : Invite)
    (hi : i ∈ db.invites) (hcode : i.inviteCode = code)
    (huniq : ∀ j ∈ db.invites, j.inviteCode = code → j = i)
    (hexp : i.expiresAt ≠ 0) (hpast : i.expiresAt < now) :
    (handleInviteJoin db u code now mid).outcome =
      (if i.isActive then InviteOutcome.expiredInvite
        else InviteOutcome.invalidInvite) ∧
    (handleInviteJoin db u code now mid).db = db := by
  cases hact : i.isActive with
  | true =>
      simp only [handleInviteJoin, invite_lookup_eq hi hcode huniq hact,
        if_pos (And.intro hexp hpast)]
      simp
  | false =>
      simp only [handleInviteJoin, invite_lookup_nil huniq hact,
        List.take_nil, List.head?_nil]
      simp

/-- Witness for C2 amended: an active invite expired in the past. -/
theorem handleInviteJoin_expired_witness :
    (handleInviteJoin ⟨[], [], [], [], [⟨"i1", "c1", "u0", "abc", 5, 0, 0, true⟩]⟩
        ⟨"u2", "c@d", "Bob", "online", 0, false, ""⟩ "abc" 100 "m1").outcome =
      (if (true : Bool) then InviteOutcome.expiredInvite
        else InviteOutcome.invalidInvite) ∧
    (handleInviteJoin ⟨[], [], [], [], [⟨"i1", "c1", "u0", "abc", 5, 0, 0, true⟩]⟩
        ⟨"u2", "c@d", "Bob", "online", 0, false, ""⟩ "abc" 100 "m1").db =
      ⟨[], [], [], [], [⟨"i1", "c1", "u0", "abc", 5, 0, 0, true⟩]⟩ :=
  handleInviteJoin_expired _ _ "abc" 100 "m1"
    ⟨"i1", "c1", "u0", "abc", 5, 0, 0, true⟩
    (List.mem_cons_self _ _) rfl
    (by intro j hj hc; simp at hj; exact hj)
    (by decide) (by decide)

/-- C3: for the (active, unexpired) invite carrying the code, when `maxUses`
is set and `currentUses` equals `maxUses`, `handleInviteJoin` fails with the
limit-reached outcome and the store is left untouched — no membership record
is created and `currentUses` is unchanged. -/
theorem handleInviteJoin_limitReached (db : DB) (u : User) (code : String)
    (now : Nat) (mid : String) (i : Invite)
    (hi : i ∈ db.invites) (hcode : i.inviteCode = code)
    (huniq : ∀ j ∈ db.invites, j.inviteCode = code → j = i)
    (hact : i.isActive = true)
    (hnotexp : ¬(i.expiresAt ≠ 0 ∧ i.expiresAt < now))
    (hmax : i.maxUses ≠ 0) (hcur : i.currentUses = i.maxUses) :
    (handleInviteJoin db u code now mid).outcome = InviteOutcome.limitReached ∧
    (handleInviteJoin db u code now mid).db = db := by
  simp only [handleInviteJoin, invite_lookup_eq hi hcode huniq hact,
    if_neg hnotexp, if_pos (And.intro hmax (Nat.le_of_eq hcur.symm))]
  exact ⟨trivial, trivial⟩

/-- Witness for C3: an active, never-expiring invite with
`maxUses = currentUses = 3`. -/
theorem handleInviteJoin_limitReached_witness :
    (handleInviteJoin ⟨[], [], [], [], [⟨"i1", "c1", "u0", "abc", 0, 3, 3, true⟩]⟩
        ⟨"u2", "c@d", "Bob", "online", 0, false, ""⟩ "abc" 100 "m1").outcome =
      InviteOutcome.limitReached ∧
    (handleInviteJoin ⟨[], [], [], [], [⟨"i1", "c1", "u0", "abc", 0, 3, 3, true⟩]⟩
        ⟨"u2", "c@d", "Bob", "online", 0, false, ""⟩ "abc" 100 "m1").db =
      ⟨[], [], [], [], [⟨"i1", "c1", "u0", "abc", 0, 3, 3, true⟩]⟩ :=
  handleInviteJoin_limitReached _ _ "abc" 100 "m1"
    ⟨"i1", "c1", "u0", "abc", 0, 3, 3, true⟩
    (List.mem_cons_self _ _) rfl
    (by intro j hj hc; simp at hj; exact hj)
    rfl (by decide) (by decide) rfl

theorem take_one_length_ne_zero {α : Type} {l : List α} (h : l ≠ []) :
    ¬((l.take 1).length = 0) := by
  cases l with
  | nil => exact absurd rfl h
  | cons a t => simp

/-- C9: redeeming a valid (active, unexpired, under-cap) invite as a user who
is already a member of its conversation writes nothing — no new membership
record, `currentUses` untouched — yet the flow still completes: the outcome
is the joined one, the conversation list is reloaded, and the invite's
conversation is selected. -/
theorem handleInviteJoin_alreadyMember (db : DB) (u : User) (code : String)
    (now : Nat) (mid : String) (i : Invite) (c : Conversation)
    (mEx : ConversationMember)
    (hi : i ∈ db.invites) (hcode : i.inviteCode = code)
    (huniq : ∀ j ∈ db.invites, j.inviteCode = code → j = i)
    (hact : i.isActive = true)
    (hnotexp : ¬(i.expiresAt ≠ 0 ∧ i.expiresAt < now))
    (hnotcap : ¬(i.maxUses ≠ 0 ∧ i.currentUses ≥ i.maxUses))
    (hmem : mEx ∈ db.conversationMembers)
    (hmemConv : mEx.conversationId = i.conversationId)
    (hmemUser : mEx.userId = u.id)
    (hc : c ∈ db.conversations) (hcid : c.id = i.conversationId)
    (hcuniq : ∀ c' ∈ db.conversations, c'.id = i.conversationId → c' = c) :
    (handleInviteJoin db u code now mid).db = db ∧
    (handleInviteJoin db u code now mid).outcome = InviteOutcome.joined ∧
    (handleInviteJoin db u code now mid).reloaded =
      some ((loadConversations db u.id).1) ∧
    (handleInviteJoin db u code now mid).selectedConversation = some c := by
  have hfilter_ne :
      db.conversationMembers.filter
        (fun m => m.conversationId == i.conversationId && m.userId == u.id) ≠ [] :=
    List.ne_nil_of_mem (List.mem_filter.mpr ⟨hmem, by simp [hmemConv, hmemUser]⟩)
  have hconv :
      ((db.conversations.filter (fun x => x.id == i.conversationId)).take 1).head? =
        some c := by
    rw [head?_take_one]
    refine head?_eq_of_mem_all (List.mem_filter.mpr ⟨hc, by simp [hcid]⟩) ?_
    intro x hx
    obtain ⟨hxm, hxp⟩ := List.mem_filter.mp hx
    rw [beq_iff_eq] at hxp
    exact hcuniq x hxm hxp
  simp only [handleInviteJoin, invite_lookup_eq hi hcode huniq hact,
    if_neg hnotexp, if_neg hnotcap,
    if_neg (take_one_length_ne_zero hfilter_ne)]
  exact ⟨trivial, trivial, trivial, hconv⟩

/-- Witness for C9: Bob is already a member of `c1`; redeeming the valid
invite `abc` changes nothing but still selects `c1`. -/
theorem handleInviteJoin_alreadyMember_witness :
    (handleInviteJoin
        ⟨[], [⟨"c1", ConvType.priv, "", "", "u1", 1, 1, 1⟩],
          [⟨"m2", "c1", "u2", Role.member, 0⟩], [],
          [⟨"i1", "c1", "u1", "abc", 0, 5, 1, true⟩]⟩
        ⟨"u2", "c@d", "Bob", "online", 0, false, ""⟩ "abc" 100 "mZ").db =
      ⟨[], [⟨"c1", ConvType.priv, "", "", "u1", 1, 1, 1⟩],
        [⟨"m2", "c1", "u2", Role.member, 0⟩], [],
        [⟨"i1", "c1", "u1", "abc", 0, 5, 1, true⟩]⟩ ∧
    (handleInviteJoin
        ⟨[], [⟨"c1", ConvType.priv, "", "", "u1", 1, 1, 1⟩],
          [⟨"m2", "c1", "u2", Role.member, 0⟩], [],
          [⟨"i1", "c1", "u1", "abc", 0, 5, 1, true⟩]⟩
        ⟨"u2", "c@d", "Bob", "online", 0, false, ""⟩ "abc" 100 "mZ").outcome =
      InviteOutcome.joined ∧
    (handleInviteJoin
        ⟨[], [⟨"c1", ConvType.priv, "", "", "u1", 1, 1, 1⟩],
          [⟨"m2", "c1", "u2", Role.member, 0⟩], [],
          [⟨"i1", "c1", "u1", "abc", 0, 5, 1, true⟩]⟩
        ⟨"u2", "c@d", "Bob", "online", 0, false, ""⟩ "abc" 100 "mZ").reloaded =
      some ((loadConversations
        ⟨[], [⟨"c1", ConvType.priv, "", "", "u1", 1, 1, 1⟩],
          [⟨"m2", "c1", "u2", Role.member, 0⟩], [],
          [⟨"i1", "c1", "u1", "abc", 0, 5, 1, true⟩]⟩ "u2").1) ∧
    (handleInviteJoin
        ⟨[], [⟨"c1", ConvType.priv, "", "", "u1", 1, 1, 1⟩],
          [⟨"m2", "c1", "u2", Role.member, 0⟩], [],
          [⟨"i1", "c1", "u1", "abc", 0, 5, 1, true⟩]⟩
        ⟨"u2", "c@d", "Bob", "online", 0, false, ""⟩ "abc" 100 "mZ").selectedConversation =
      some ⟨"c1", ConvType.priv, "", "", "u1", 1, 1, 1⟩ :=
  handleInviteJoin_alreadyMember _ _ "abc" 100 "mZ"
    ⟨"i1", "c1", "u1", "abc", 0, 5, 1, true⟩
    ⟨"c1", ConvType.priv, "", "", "u1", 1, 1, 1⟩
    ⟨"m2", "c1", "u2", Role.member, 0⟩
    (List.mem_cons_self _ _) rfl
    (by intro j hj hc; simp at hj; exact hj)
    rfl (by decide) (by decide)
    (List.mem_cons_self _ _) rfl rfl
    (List.mem_cons_self _ _) rfl
    (by intro c' hc' hid; simp at hc'; exact hc')

/-- C10: a `maxUses` of 0 is falsy, so the usage-cap guard is skipped and
redemption proceeds regardless of `currentUses`; likewise `expiresAt = 0` is
falsy and never counts as expired — the active invite is redeemed with the
joined outcome. -/
theorem handleInviteJoin_zero_caps (db : DB) (u : User) (code : String)
    (now : Nat) (mid : String) (i : Invite)
    (hi : i ∈ db.invites) (hcode : i.inviteCode = code)
    (huniq : ∀ j ∈ db.invites, j.inviteCode = code → j = i)
    (hact : i.isActive = true)
    (hexp0 : i.expiresAt = 0) (hmax0 : i.maxUses = 0) :
    (handleInviteJoin db u code now mid).outcome = InviteOutcome.joined := by
  simp only [handleInviteJoin, invite_lookup_eq hi hcode huniq hact,
    if_neg (fun h : i.expiresAt ≠ 0 ∧ i.expiresAt < now => h.1 hexp0),
    if_neg (fun h : i.maxUses ≠ 0 ∧ i.currentUses ≥ i.maxUses => h.1 hmax0)]

/-- Witness for C10: an invite with `maxUses = 0` whose `currentUses` is
already 7 is still redeemed. -/
theorem handleInviteJoin_zero_caps_witness :
    (handleInviteJoin ⟨[], [], [], [], [⟨"i1", "c1", "u1", "xyz", 0, 0, 7, true⟩]⟩
        ⟨"u2", "c@d", "Bob", "online", 0, false, ""⟩ "xyz" 100 "mZ").outcome =
      InviteOutcome.joined :=
  handleInviteJoin_zero_caps _ _ "xyz" 100 "mZ"
    ⟨"i1", "c1", "u1", "xyz", 0, 0, 7, true⟩
    (List.mem_cons_self _ _) rfl
    (by intro j hj hc; simp at hj; exact hj)
    rfl rfl rfl

/-! ## Duplicate-scan helper lemmas for `handleCreatePrivateChat` -/

/-- Any conversation accepted by `privateMatch` really is a stored private
conversation with exactly two members, one of them the target user. -/
theorem privateMatch_good {db : DB} {t : String} {membership : ConversationMember}
    {conv : Conversation} (h : privateMatch db t membership = some conv) :
    conv ∈ db.conversations ∧ conv.type = ConvType.priv ∧
    (db.conversationMembers.filter
      (fun m => m.conversationId == conv.id)).length = 2 ∧
    (db.conversationMembers.filter
      (fun m => m.conversationId == conv.id)).any
        (fun m => m.userId == t) = true := by
  unfold privateMatch at h
  rw [head?_take_one] at h
  cases hh : (db.conversations.filter
      (fun c => c.id == membership.conversationId &&
        c.type == ConvType.priv)).head? with
  | none => rw [hh] at h; cases h
  | some c0 =>
      rw [hh] at h
      dsimp only at h
      have hc0 : c0 ∈ db.conversations.filter
          (fun c => c.id == membership.conversationId &&
            c.type == ConvType.priv) :=
        List.mem_of_mem_head? (by rw [hh]; exact rfl)
      obtain ⟨hc0mem, hc0pred⟩ := List.mem_filter.mp hc0
      rw [Bool.and_eq_true, beq_iff_eq, beq_iff_eq] at hc0pred
      by_cases hguard : (db.conversationMembers.filter
            (fun m => m.conversationId == c0.id)).length = 2 ∧
          (db.conversationMembers.filter
            (fun m => m.conversationId == c0.id)).any
              (fun m => m.userId == t) = true
      · rw [if_pos hguard] at h
        obtain rfl : c0 = conv := by injection h
        exact ⟨hc0mem, hc0pred.2, hguard.1, hguard.2⟩
      · rw [if_neg hguard] at h; cases h

/-- If some scanned membership produces a `privateMatch`, the scan loop
returns a conversation. -/
theorem findExistingPrivate_some {db : DB} {t : String}
    {l : List ConversationMember} {m : ConversationMember} {c : Conversation}
    (hm : m ∈ l) (hmatch : privateMatch db t m = some c) :
    ∃ conv, findExistingPrivate db t l = some conv := by
  induction l with
  | nil => cases hm
  | cons m' rest ih =>
      cases hpm : privateMatch db t m' with
      | some conv => exact ⟨conv, by simp [findExistingPrivate, hpm]⟩
      | none =>
          rcases List.mem_cons.mp hm with rfl | hrest
          · rw [hpm] at hmatch; cases hmatch
          · obtain ⟨conv, hconv⟩ := ih hrest
            exact ⟨conv, by simp [findExistingPrivate, hpm, hconv]⟩

/-- Any conversation the scan loop returns satisfies the `privateMatch`
properties. -/
theorem findExistingPrivate_good {db : DB} {t : String}
    {l : List ConversationMember} {conv : Conversation}
    (h : findExistingPrivate db t l = some conv) :
    conv ∈ db.conversations ∧ conv.type = ConvType.priv ∧
    (db.conversationMembers.filter
      (fun m => m.conversationId == conv.id)).length = 2 ∧
    (db.conversationMembers.filter
      (fun m => m.conversationId == conv.id)).any
        (fun m => m.userId == t) = true := by
  induction l with
  | nil => cases h
  | cons m' rest ih =>
      cases hpm : privateMatch db t m' with
      | some c =>
          rw [findExistingPrivate, hpm] at h
          obtain rfl : c = conv := by injection h
          exact privateMatch_good hpm
      | none =>
          rw [findExistingPrivate, hpm] at h
          exact ih h

/-- C1: when users A and B already share a private conversation (a stored
conversation of type private with exactly two membership records, one of
them B's, reachable through one of A's membership records),
`handleCreatePrivateChat` selects an existing such conversation and creates
no new conversation record and no new membership records — the store is
returned unchanged. -/
theorem handleCreatePrivateChat_dedup (db : DB) (user : User)
    (targetUserId : String) (now : Nat) (conversationId mem1 mem2 : String)
    (c : Conversation) (mA : ConversationMember)
    (hmA : mA ∈ db.conversationMembers) (hmAuser : mA.userId = user.id)
    (hmAconv : mA.conversationId = c.id)
    (hc : c ∈ db.conversations) (hpriv : c.type = ConvType.priv)
    (huniq : ∀ c' ∈ db.conversations, c'.id = c.id → c' = c)
    (hlen : (db.conversationMembers.filter
      (fun m => m.conversationId == c.id)).length = 2)
    (htgt : (db.conversationMembers.filter
      (fun m => m.conversationId == c.id)).any
        (fun m => m.userId == targetUserId) = true) :
    (handleCreatePrivateChat db user targetUserId now
      conversationId mem1 mem2).1 = db ∧
    ∃ c', (handleCreatePrivateChat db user targetUserId now
        conversationId mem1 mem2).2 = some c' ∧
      c' ∈ db.conversations ∧ c'.type = ConvType.priv ∧
      (db.conversationMembers.filter
        (fun m => m.conversationId == c'.id)).length = 2 ∧
      (db.conversationMembers.filter
        (fun m => m.conversationId == c'.id)).any
          (fun m => m.userId == targetUserId) = true := by
  have hmatch : privateMatch db targetUserId mA = some c := by
    unfold privateMatch
    have hhead : ((db.conversations.filter
        (fun x => x.id == mA.conversationId &&
          x.type == ConvType.priv)).take 1).head? = some c := by
      rw [head?_take_one]
      refine head?_eq_of_mem_all
        (List.mem_filter.mpr ⟨hc, by simp [hmAconv, hpriv]⟩) ?_
      intro x hx
      obtain ⟨hxm, hxp⟩ := List.mem_filter.mp hx
      rw [Bool.and_eq_true, beq_iff_eq, beq_iff_eq] at hxp
      exact huniq x hxm (hmAconv ▸ hxp.1)
    rw [hhead]
    dsimp only
    rw [if_pos ⟨hlen, htgt⟩]
  have hmemScan : mA ∈ db.conversationMembers.filter
      (fun m => m.userId == user.id) :=
    List.mem_filter.mpr ⟨hmA, by simp [hmAuser]⟩
  obtain ⟨conv, hfind⟩ := findExistingPrivate_some hmemScan hmatch
  have hgood := findExistingPrivate_good hfind
  simp only [handleCreatePrivateChat]
  rw [hfind]
  exact ⟨rfl, conv, rfl, hgood.1, hgood.2.1, hgood.2.2.1, hgood.2.2.2⟩

/-- Witness for C1: Alice and Bob already share the two-member private
conversation `c1`; a fresh `handleCreatePrivateChat` call leaves the store
untouched and selects it. -/
theorem handleCreatePrivateChat_dedup_witness :
    (handleCreatePrivateChat
        ⟨[], [⟨"c1", ConvType.priv, "", "", "u1", 5, 5, 5⟩],
          [⟨"m1", "c1", "u1", Role.member, 0⟩,
           ⟨"m2", "c1", "u2", Role.member, 0⟩], [], []⟩
        ⟨"u1", "a@b", "Alice", "online", 0, false, ""⟩
        "u2" 50 "cX" "mA" "mB").1 =
      ⟨[], [⟨"c1", ConvType.priv, "", "", "u1", 5, 5, 5⟩],
        [⟨"m1", "c1", "u1", Role.member, 0⟩,
         ⟨"m2", "c1", "u2", Role.member, 0⟩], [], []⟩ ∧
    ∃ c', (handleCreatePrivateChat
        ⟨[], [⟨"c1", ConvType.priv, "", "", "u1", 5, 5, 5⟩],
          [⟨"m1", "c1", "u1", Role.member, 0⟩,
           ⟨"m2", "c1", "u2", Role.member, 0⟩], [], []⟩
        ⟨"u1", "a@b", "Alice", "online", 0, false, ""⟩
        "u2" 50 "cX" "mA" "mB").2 = some c' ∧
      c' ∈ (⟨[], [⟨"c1", ConvType.priv, "", "", "u1", 5, 5, 5⟩],
        [⟨"m1", "c1", "u1", Role.member, 0⟩,
         ⟨"m2", "c1", "u2", Role.member, 0⟩], [], []⟩ : DB).conversations ∧
      c'.type = ConvType.priv ∧
      ((⟨[], [⟨"c1", ConvType.priv, "", "", "u1", 5, 5, 5⟩],
        [⟨"m1", "c1", "u1", Role.member, 0⟩,
         ⟨"m2", "c1", "u2", Role.member, 0⟩], [], []⟩ : DB).conversationMembers.filter
        (fun m => m.conversationId == c'.id)).length = 2 ∧
      ((⟨[], [⟨"c1", ConvType.priv, "", "", "u1", 5, 5, 5⟩],
        [⟨"m1", "c1", "u1", Role.member, 0⟩,
         ⟨"m2", "c1", "u2", Role.member, 0⟩], [], []⟩ : DB).conversationMembers.filter
        (fun m => m.conversationId == c'.id)).any
          (fun m => m.userId == "u2") = true :=
  handleCreatePrivateChat_dedup _ _ "u2" 50 "cX" "mA" "mB"
    ⟨"c1", ConvType.priv, "", "", "u1", 5, 5, 5⟩
    ⟨"m1", "c1", "u1", Role.member, 0⟩
    (List.mem_cons_self _ _) rfl rfl
    (List.mem_cons_self _ _) rfl
    (by intro c' hc' hid; simp at hc'; exact hc')
    (by decide) (by decide)

/-- C4: after a successful `sendMessage` whose input trims to `"hello"` (with
no send in flight and a clock that has not run backwards past the
conversation's `lastMessageAt`), the next `loadMessages` for that conversation
contains a message with `messageType = text`, `content = "hello"` and
`createdAt` no earlier than the conversation's prior `lastMessageAt`; and
`loadMessages` returns its messages ordered by `createdAt` ascending. -/
theorem sendText_roundTrip (db : DB) (conversation : Conversation) (user : User)
    (newMessage : String) (now now2 : Nat) (messageId : String)
    (htrim : trim newMessage = "hello")
    (hclock : conversation.lastMessageAt ≤ now) :
    (∃ mw ∈ loadMessages
        (sendMessage db conversation user newMessage false now now2 messageId)
        conversation.id,
      mw.msg.messageType = MessageType.text ∧ mw.msg.content = "hello" ∧
      conversation.lastMessageAt ≤ mw.msg.createdAt) ∧
    List.Pairwise (fun a b => a.msg.createdAt ≤ b.msg.createdAt)
      (loadMessages
        (sendMessage db conversation user newMessage false now now2 messageId)
        conversation.id) := by
  have hne : ¬(trim newMessage = "" ∨ (false : Bool) = true) := by
    rintro (h | h)
    · exact absurd (htrim.symm.trans h) (by decide)
    · cases h
  unfold sendMessage
  rw [if_neg hne]
  unfold loadMessages
  dsimp only
  constructor
  · refine ⟨⟨⟨messageId, conversation.id, user.id, trim newMessage,
        MessageType.text, "", "", 0, "", now⟩,
      ((db.users.filter (fun u => u.id == user.id)).take 1).head?⟩,
      ?_, rfl, htrim, hclock⟩
    exact List.mem_map_of_mem _
      ((List.mem_insertionSort _).mpr
        (List.mem_filter.mpr
          ⟨List.mem_append_right _ (List.mem_cons_self _ _), by simp⟩))
  · rw [List.pairwise_map]
    exact List.sorted_insertionSort createdAtLe _

/-- Witness for C4: sending `"hello"` into an empty thread whose conversation
has `lastMessageAt = 5` at time `now = 10`. -/
theorem sendText_roundTrip_witness :
    (∃ mw ∈ loadMessages
        (sendMessage ⟨[⟨"u1", "a@b", "Alice", "online", 0, false, ""⟩],
            [⟨"c1", ConvType.priv, "", "", "u1", 5, 5, 5⟩], [], [], []⟩
          ⟨"c1", ConvType.priv, "", "", "u1", 5, 5, 5⟩
          ⟨"u1", "a@b", "Alice", "online", 0, false, ""⟩
          "hello" false 10 11 "msg1") "c1",
      mw.msg.messageType = MessageType.text ∧ mw.msg.content = "hello" ∧
      (⟨"c1", ConvType.priv, "", "", "u1", 5, 5, 5⟩ : Conversation).lastMessageAt ≤
        mw.msg.createdAt) ∧
    List.Pairwise (fun a b => a.msg.createdAt ≤ b.msg.createdAt)
      (loadMessages
        (sendMessage ⟨[⟨"u1", "a@b", "Alice", "online", 0, false, ""⟩],
            [⟨"c1", ConvType.priv, "", "", "u1", 5, 5, 5⟩], [], [], []⟩
          ⟨"c1", ConvType.priv, "", "", "u1", 5, 5, 5⟩
          ⟨"u1", "a@b", "Alice", "online", 0, false, ""⟩
          "hello" false 10 11 "msg1") "c1") :=
  sendText_roundTrip _ _ _ "hello" 10 11 "msg1" (by decide) (by decide)

/-- C8: whenever a conversation has a most recent message `m` (the head of
its messages ordered by `createdAt` descending), the preview built by
`conversationWithDetails` exists and its content is `m.content` when that is
non-empty, `"📎 " ++ m.fileName` when the content is empty and
`m.messageType` is `file`, and `"File"` in every other empty-content case
(including `messageType = image`). -/
theorem conversationWithDetails_preview (db : DB) (conv : Conversation)
    (m : Message)
    (h : ((List.insertionSort createdAtGe
        (db.messages.filter (fun x => x.conversationId == conv.id))).take 1).head? =
      some m) :
    ∃ lm, (conversationWithDetails db conv).1.lastMessage = some lm ∧
      (m.content ≠ "" → lm.content = m.content) ∧
      (m.content = "" → m.messageType = MessageType.file →
        lm.content = "📎 " ++ m.fileName) ∧
      (m.content = "" → m.messageType ≠ MessageType.file →
        lm.content = "File") ∧
      ∀ m' ∈ db.messages.filter (fun x => x.conversationId == conv.id),
        m'.createdAt ≤ m.createdAt := by
  refine ⟨⟨lastMessageContent m,
      senderNameOf ((db.users.filter (fun u => u.id == m.userId)).take 1).head?,
      m.createdAt⟩, ?_, ?_, ?_, ?_, ?_⟩
  · simp only [conversationWithDetails, h]
  · intro hc
    simp [lastMessageContent, hc]
  · intro hc hf
    simp [lastMessageContent, hc, hf]
  · intro hc hf
    simp [lastMessageContent, hc, hf]
  · intro m' hm'
    have hsorted := List.sorted_insertionSort createdAtGe
      (db.messages.filter (fun x => x.conversationId == conv.id))
    rw [head?_take_one] at h
    cases hl : List.insertionSort createdAtGe
        (db.messages.filter (fun x => x.conversationId == conv.id)) with
    | nil => rw [hl] at h; cases h
    | cons a rest =>
        rw [hl] at h
        obtain rfl : a = m := by injection h
        rw [hl] at hsorted
        have hmem : m' ∈ a :: rest := by
          rw [← hl]
          exact (List.mem_insertionSort _).mpr hm'
        rcases List.mem_cons.mp hmem with rfl | hrest
        · exact Nat.le_refl _
        · exact (List.sorted_cons.mp hsorted).1 m' hrest

/-- Witness for C8: a conversation whose latest message is an image with no
text content — the preview falls back to `"File"`. -/
theorem conversationWithDetails_preview_witness :
    ∃ lm, (conversationWithDetails
        ⟨[], [⟨"c1", ConvType.priv, "", "", "u1", 5, 5, 5⟩],
          [], [⟨"ms1", "c1", "u1", "", MessageType.image, "url", "pic.png", 3,
            "image/png", 9⟩], []⟩
        ⟨"c1", ConvType.priv, "", "", "u1", 5, 5, 5⟩).1.lastMessage = some lm ∧
      ((⟨"ms1", "c1", "u1", "", MessageType.image, "url", "pic.png", 3,
          "image/png", 9⟩ : Message).content ≠ "" →
        lm.content = (⟨"ms1", "c1", "u1", "", MessageType.image, "url",
          "pic.png", 3, "image/png", 9⟩ : Message).content) ∧
      ((⟨"ms1", "c1", "u1", "", MessageType.image, "url", "pic.png", 3,
          "image/png", 9⟩ : Message).content = "" →
        (⟨"ms1", "c1", "u1", "", MessageType.image, "url", "pic.png", 3,
          "image/png", 9⟩ : Message).messageType = MessageType.file →
        lm.content = "📎 " ++ (⟨"ms1", "c1", "u1", "", MessageType.image,
          "url", "pic.png", 3, "image/png", 9⟩ : Message).fileName) ∧
      ((⟨"ms1", "c1", "u1", "", MessageType.image, "url", "pic.png", 3,
          "image/png", 9⟩ : Message).content = "" →
        (⟨"ms1", "c1", "u1", "", MessageType.image, "url", "pic.png", 3,
          "image/png", 9⟩ : Message).messageType ≠ MessageType.file →
        lm.content = "File") ∧
      ∀ m' ∈ ((⟨[], [⟨"c1", ConvType.priv, "", "", "u1", 5, 5, 5⟩],
          [], [⟨"ms1", "c1", "u1", "", MessageType.image, "url", "pic.png", 3,
            "image/png", 9⟩], []⟩ : DB).messages.filter
          (fun x => x.conversationId ==
            (⟨"c1", ConvType.priv, "", "", "u1", 5, 5, 5⟩ : Conversation).id)),
        m'.createdAt ≤ (⟨"ms1", "c1", "u1", "", MessageType.image, "url",
          "pic.png", 3, "image/png", 9⟩ : Message).createdAt :=
  conversationWithDetails_preview _ _
    ⟨"ms1", "c1", "u1", "", MessageType.image, "url", "pic.png", 3,
      "image/png", 9⟩ (by decide)

end Connectify
